import Mathlib

/-!
Shallow embedding of `src/web_scraper.py` (class `WebScraper`): the paginated
crawl engine `scrape_books`, the per-item extractor `_extract_book_details`,
and the persistence routine `save_to_csv`.

Modelling choices:
* A parsed `article.product_pod` element is a `BookElement`; each of the five
  field reads in `_extract_book_details` can raise in Python (missing
  attribute / `find` returning `None`), modelled as an `Option` per field.
* The network is an oracle `Net : Request → Except FetchError RawPage`
  covering `requests.get` + `raise_for_status`: an `Except.error` is any
  `requests.RequestException` (timeout, network error, non-2xx status);
  `Except.ok` carries the parsed page, reduced to its list of
  `article.product_pod` elements (`soup.find_all('article', class_='product_pod')`).
* `scrape_books` additionally returns the trace of externally visible events:
  one `Event.request` per issued GET and one `Event.sleep` per `time.sleep(1)`,
  in program order.  Python's `dict` result for one book is an association
  list (`Record`), the empty dict (falsy, dropped by `if book_info:`) being `[]`.
-/

/-- One parsed `article.product_pod` element.  Each field models one of the
five reads in `_extract_book_details`; `none` means that read raises. -/
structure BookElement where
  titleAttr : Option String
  priceText : Option String
  availabilityText : Option String
  ratingClass : Option String
  hrefAttr : Option String
deriving DecidableEq

/-- A successfully fetched page, reduced to its parsed item elements. -/
structure RawPage where
  books : List BookElement
deriving DecidableEq

/-- The ways `requests.get(...)` / `raise_for_status()` can fail
(`requests.RequestException` and subclasses). -/
inductive FetchError where
  | timeout
  | network
  | httpStatus (code : Nat)
deriving DecidableEq

/-- One HTTP GET as issued by `scrape_books`: the URL, the `User-Agent`
header value, and the request timeout in seconds. -/
structure Request where
  url : String
  userAgent : String
  timeout : Nat
deriving DecidableEq

/-- Externally visible events of a crawl, in program order. -/
inductive Event where
  | request (page : Nat) (req : Request)
  | sleep
deriving DecidableEq

/-- The network oracle. -/
abbrev Net := Request → Except FetchError RawPage

/-- One book's extracted data: the Python dict as an association list. -/
abbrev Record := List (String × String)

/-- The `User-Agent` value set in `WebScraper.__init__`. -/
def userAgentString : String :=
  "Mozilla/5.0 (Windows NT 10.0; Win64; x64) AppleWebKit/537.36 (KHTML, like Gecko) Chrome/91.0.4472.124 Safari/537.36"

/-- The URL fetched for a page index:
`f"{self.base_url}/catalogue/page-{page}.html" if page > 1 else self.base_url`. -/
def pageUrl (base : String) (page : Nat) : String :=
  if page > 1 then base ++ "/catalogue/page-" ++ toString page ++ ".html" else base

/-- The full request issued for one page:
`requests.get(url, headers=self.headers, timeout=10)`. -/
def requestFor (base : String) (page : Nat) : Request :=
  { url := pageUrl base page, userAgent := userAgentString, timeout := 10 }

/-- `WebScraper._extract_book_details`: read the five fields; if any read
raises, the `except` arm returns the empty dict. Mirrors
`title = book_element.h3.a['title']`, `price = ....text[1:]`,
`availability = ....text.strip()`, `rating = ....['class'][1]`,
`book_url = self.base_url + '/' + book_element.h3.a['href']`. -/
def extract_book_details (base : String) (b : BookElement) : Record :=
  match b.titleAttr, b.priceText, b.availabilityText, b.ratingClass, b.hrefAttr with
  | some title, some price, some availability, some rating, some href =>
      [("Title", title),
       ("Price", price.drop 1),
       ("Availability", availability.trim),
       ("Rating", rating),
       ("URL", base ++ "/" ++ href)]
  | _, _, _, _, _ => []

/-- The per-page inner loop of `scrape_books`:
`for book in books: book_info = ...; if book_info: all_books.append(book_info)`. -/
def extractAll (base : String) (books : List BookElement) : List Record :=
  (books.map (extract_book_details base)).filter (fun r => !r.isEmpty)

/-- The page loop of `scrape_books`, over the remaining page indices
(`range(1, max_pages + 1)`); returns the accumulated records and the event
trace.  `except requests.RequestException: ...; continue` is the `.error`
arm; `if not books: ...; break` is the `isEmpty` arm; `time.sleep(1)` runs
only after a successful, non-empty page's items were processed. -/
def scrapePages (net : Net) (base : String) : List Nat → List Record × List Event
  | [] => ([], [])
  | p :: rest =>
      match net (requestFor base p) with
      | .error _ =>
          let r := scrapePages net base rest
          (r.1, .request p (requestFor base p) :: r.2)
      | .ok raw =>
          if raw.books.isEmpty then
            ([], [.request p (requestFor base p)])
          else
            let r := scrapePages net base rest
            (extractAll base raw.books ++ r.1,
             .request p (requestFor base p) :: .sleep :: r.2)

/-- `WebScraper.scrape_books(max_pages)`. -/
def scrape_books (net : Net) (base : String) (maxPages : Nat) :
    List Record × List Event :=
  scrapePages net base (List.range' 1 maxPages)

/-- Observable effect of `save_to_csv`: either the "No data to save!" warning
with no write, or a write of a header row plus one row per record. -/
inductive SaveAction where
  | warnNoData
  | wrote (filename : String) (fieldnames : List String) (rows : List Record)
deriving DecidableEq

/-- `WebScraper.save_to_csv`: `if not books: warn; return`, else write header
`books[0].keys()` and one row per book, in order. -/
def save_to_csv (books : List Record) (filename : String) : SaveAction :=
  match books with
  | [] => .warnNoData
  | b :: _ => .wrote filename (b.map Prod.fst) books

/-! Derived observations on the crawl, used to state the claims. -/

/-- The page indices of the GETs issued, in order. -/
def visitedPages (trace : List Event) : List Nat :=
  trace.filterMap fun e =>
    match e with
    | .request p _ => some p
    | .sleep => none

/-- Whether an event is the politeness delay. -/
def isSleep : Event → Bool
  | .sleep => true
  | _ => false

/-- Number of `time.sleep(1)` calls in a trace. -/
def countSleeps (trace : List Event) : Nat :=
  (trace.filter isSleep).length

/-- Records contributed by one page: none on fetch failure, otherwise the
extracted records of its item elements. -/
def pageRecords (net : Net) (base : String) (p : Nat) : List Record :=
  match net (requestFor base p) with
  | .error _ => []
  | .ok raw => extractAll base raw.books

/-- Events contributed by one visited page. -/
def pageEvents (net : Net) (base : String) (p : Nat) : List Event :=
  match net (requestFor base p) with
  | .error _ => [.request p (requestFor base p)]
  | .ok raw =>
      if raw.books.isEmpty then [.request p (requestFor base p)]
      else [.request p (requestFor base p), .sleep]

/-- Page `p` fetches successfully and parses into zero item elements
(the crawl's stop condition). -/
def isEmptySuccess (net : Net) (base : String) (p : Nat) : Bool :=
  match net (requestFor base p) with
  | .error _ => false
  | .ok raw => raw.books.isEmpty

/-- Page `p` fetches successfully and parses into at least one item element. -/
def okNonempty (net : Net) (base : String) (p : Nat) : Bool :=
  match net (requestFor base p) with
  | .error _ => false
  | .ok raw => !raw.books.isEmpty

/-- The pages the loop actually visits, given the page indices it would
iterate over: truncated after the first empty successful page. -/
def crawlVisits (net : Net) (base : String) : List Nat → List Nat
  | [] => []
  | p :: rest =>
      match net (requestFor base p) with
      | .error _ => p :: crawlVisits net base rest
      | .ok raw =>
          if raw.books.isEmpty then [p] else p :: crawlVisits net base rest

/-! Structural lemmas about the crawl loop. -/

/-- The records returned by the loop are the concatenation, over the visited
pages, of each page's records. -/
theorem scrapePages_records (net : Net) (base : String) :
    ∀ ps : List Nat,
      (scrapePages net base ps).1 =
        (crawlVisits net base ps).flatMap (pageRecords net base) := by
  intro ps
  induction ps with
  | nil => rfl
  | cons p rest ih =>
      simp only [scrapePages, crawlVisits]
      cases h : net (requestFor base p) with
      | error e => simp [pageRecords, h, ih]
      | ok raw =>
          by_cases hb : raw.books.isEmpty
          · simp [pageRecords, h, hb, extractAll, List.isEmpty_iff.mp hb]
          · simp [pageRecords, h, hb, ih]

/-- The event trace is the concatenation, over the visited pages, of each
page's events. -/
theorem scrapePages_trace (net : Net) (base : String) :
    ∀ ps : List Nat,
      (scrapePages net base ps).2 =
        (crawlVisits net base ps).flatMap (pageEvents net base) := by
  intro ps
  induction ps with
  | nil => rfl
  | cons p rest ih =>
      simp only [scrapePages, crawlVisits]
      cases h : net (requestFor base p) with
      | error e => simp [pageEvents, h, ih]
      | ok raw =>
          by_cases hb : raw.books.isEmpty
          · simp [pageEvents, h, hb]
          · simp [pageEvents, h, hb, ih]

/-- Each visited page issues exactly one GET, so the request trace lists the
visited pages in order. -/
theorem visitedPages_flatMap (net : Net) (base : String) :
    ∀ qs : List Nat, visitedPages (qs.flatMap (pageEvents net base)) = qs := by
  intro qs
  induction qs with
  | nil => rfl
  | cons q rest ih =>
      simp only [List.flatMap_cons]
      rw [visitedPages, List.filterMap_append]
      cases h : net (requestFor base q) with
      | error e => simp [pageEvents, h, visitedPages] at ih ⊢; exact ih
      | ok raw =>
          by_cases hb : raw.books.isEmpty
          · simp [pageEvents, h, hb, visitedPages] at ih ⊢; exact ih
          · simp [pageEvents, h, hb, visitedPages] at ih ⊢; exact ih

/-- A sleep occurs exactly for each visited page whose fetch succeeded with a
non-empty list of item elements. -/
theorem countSleeps_flatMap (net : Net) (base : String) :
    ∀ qs : List Nat,
      countSleeps (qs.flatMap (pageEvents net base)) =
        (qs.filter (okNonempty net base)).length := by
  intro qs
  induction qs with
  | nil => rfl
  | cons q rest ih =>
      simp only [List.flatMap_cons, List.filter_cons]
      rw [countSleeps, List.filter_append]
      cases h : net (requestFor base q) with
      | error e =>
          simp [pageEvents, h, okNonempty, isSleep, countSleeps] at ih ⊢; exact ih
      | ok raw =>
          by_cases hb : raw.books.isEmpty
          · simp [pageEvents, h, hb, okNonempty, isSleep, countSleeps] at ih ⊢
            exact ih
          · simp [pageEvents, h, hb, okNonempty, isSleep, countSleeps] at ih ⊢
            exact ih

/-- Characterization of the visited pages: a prefix `range' s k` of the
iteration range, cut at the first empty successful page. -/
theorem crawlVisits_range' (net : Net) (base : String) :
    ∀ n s : Nat, ∃ k, k ≤ n ∧
      crawlVisits net base (List.range' s n) = List.range' s k ∧
      (∀ p, s ≤ p → p < s + k - 1 → isEmptySuccess net base p = false) ∧
      (k < n → 1 ≤ k ∧ isEmptySuccess net base (s + k - 1) = true) := by
  intro n
  induction n with
  | zero =>
      intro s
      refine ⟨0, Nat.le_refl 0, rfl, ?_, ?_⟩
      · intro p hp hlt; exfalso; omega
      · intro h; exfalso; omega
  | succ m ih =>
      intro s
      rw [List.range'_succ]
      simp only [crawlVisits]
      cases h : net (requestFor base s) with
      | error e =>
          obtain ⟨k, hk, hcv, hne, hes⟩ := ih (s + 1)
          refine ⟨k + 1, by omega, ?_, ?_, ?_⟩
          · rw [List.range'_succ, hcv]
          · intro p hp hlt
            rcases eq_or_lt_of_le hp with rfl | hgt
            · simp [isEmptySuccess, h]
            · exact hne p (by omega) (by omega)
          · intro hkm
            obtain ⟨hk1, hemp⟩ := hes (by omega)
            refine ⟨by omega, ?_⟩
            have heq : s + 1 + k - 1 = s + (k + 1) - 1 := by omega
            rwa [heq] at hemp
      | ok raw =>
          by_cases hb : raw.books.isEmpty
          · refine ⟨1, by omega, ?_, ?_, ?_⟩
            · simp [hb, List.range']
            · intro p hp hlt; exfalso; omega
            · intro _
              refine ⟨Nat.le_refl 1, ?_⟩
              simp [isEmptySuccess, h, hb]
          · obtain ⟨k, hk, hcv, hne, hes⟩ := ih (s + 1)
            refine ⟨k + 1, by omega, ?_, ?_, ?_⟩
            · rw [List.range'_succ, hcv]
              simp [hb]
            · intro p hp hlt
              rcases eq_or_lt_of_le hp with rfl | hgt
              · simp [isEmptySuccess, h, hb]
              · exact hne p (by omega) (by omega)
            · intro hkm
              obtain ⟨hk1, hemp⟩ := hes (by omega)
              refine ⟨by omega, ?_⟩
              have heq : s + 1 + k - 1 = s + (k + 1) - 1 := by omega
              rwa [heq] at hemp

/-- Full behaviour of `scrape_books`: there is a cut point `K ≤ maxPages` such
that pages `1..K` are visited in order, the cut is exactly the first empty
successful page (if within range), and the result is the concatenation of the
visited pages' records. -/
theorem scrape_spec (net : Net) (base : String) (N : Nat) :
    ∃ K, K ≤ N ∧
      visitedPages (scrape_books net base N).2 = List.range' 1 K ∧
      (∀ p, 1 ≤ p → p < K → isEmptySuccess net base p = false) ∧
      (K < N → 1 ≤ K ∧ isEmptySuccess net base K = true) ∧
      (scrape_books net base N).1 =
        (List.range' 1 K).flatMap (pageRecords net base) := by
  obtain ⟨k, hk, hcv, hne, hes⟩ := crawlVisits_range' net base N 1
  refine ⟨k, hk, ?_, ?_, ?_, ?_⟩
  · rw [scrape_books, scrapePages_trace, visitedPages_flatMap, hcv]
  · intro p h1 h2
    exact hne p h1 (by omega)
  · intro hKN
    obtain ⟨hk1, hemp⟩ := hes hKN
    exact ⟨hk1, by rwa [(by omega : 1 + k - 1 = k)] at hemp⟩
  · rw [scrape_books, scrapePages_records, hcv]

/-- If page `p` is visited, is not the empty-success stop page, and is not the
last page of the range, then page `p + 1` is visited too. -/
theorem visited_next (net : Net) (base : String) (N p : Nat)
    (hfalse : isEmptySuccess net base p = false)
    (hmem : p ∈ visitedPages (scrape_books net base N).2) (hlt : p < N) :
    p + 1 ∈ visitedPages (scrape_books net base N).2 := by
  obtain ⟨K, hK, hv, hne, hes, _⟩ := scrape_spec net base N
  rw [hv] at hmem ⊢
  rw [List.mem_range'_1] at hmem ⊢
  refine ⟨by omega, ?_⟩
  by_contra hcon
  have hpK : p = K := by omega
  subst hpK
  have hemp := (hes (by omega)).2
  rw [hfalse] at hemp
  exact Bool.false_ne_true hemp

/-! Concrete fixtures used by witnesses and counterexamples. -/

/-- A fully well-formed sample item element. -/
def bookGood : BookElement :=
  { titleAttr := some "A Light in the Attic"
  , priceText := some "£51.77"
  , availabilityText := some "In stock"
  , ratingClass := some "Three"
  , hrefAttr := some "catalogue/a-light-in-the-attic_1000/index.html" }

/-- An item element whose price-field read raises. -/
def bookNoPrice : BookElement :=
  { titleAttr := some "Broken"
  , priceText := none
  , availabilityText := some "In stock"
  , ratingClass := some "One"
  , hrefAttr := some "x.html" }

/-- A network where every page succeeds with one well-formed item. -/
def netAllGood : Net := fun _ => .ok ⟨[bookGood]⟩

/-- A network where the base URL (page 1) fails and every other page
succeeds with one well-formed item. -/
def netPage1Down : Net := fun req =>
  if req.url = "B" then .error .network else .ok ⟨[bookGood]⟩

/-- A network where page 2 times out and every other page succeeds. -/
def netPage2Down : Net := fun req =>
  if req.url = pageUrl "B" 2 then .error .timeout else .ok ⟨[bookGood]⟩

/-- A network where every fetch fails. -/
def netAllDown : Net := fun _ => .error .timeout

/-- A network where page 1 yields one item that fails extraction, and every
other page yields one well-formed item. -/
def netBadItems : Net := fun req =>
  if req.url = "B" then .ok ⟨[bookNoPrice]⟩ else .ok ⟨[bookGood]⟩

/-! The claims. -/

/-- C1: for every `maxPages = N ≥ 0`, `scrape_books` visits pages `1..K` in
order with `K ≤ N`; the crawl stops at the first page (if any) whose
successful fetch parses to zero item elements (the code's `if not books:
break`), so pages before the stop are not empty successes, an early stop
(`K < N`) happens only at an empty success, and `K = N` when no page in range
is an empty success; the result is exactly the records accumulated from the
visited pages. -/
theorem C1_scrape_books_pagination (net : Net) (base : String) (N : Nat) :
    ∃ K, K ≤ N ∧
      visitedPages (scrape_books net base N).2 = List.range' 1 K ∧
      (∀ p, 1 ≤ p → p < K → isEmptySuccess net base p = false) ∧
      (K < N → isEmptySuccess net base K = true) ∧
      ((∀ p, 1 ≤ p → p ≤ N → isEmptySuccess net base p = false) → K = N) ∧
      (scrape_books net base N).1 =
        (List.range' 1 K).flatMap (pageRecords net base) := by
  obtain ⟨K, hK, hv, hne, hes, hrec⟩ := scrape_spec net base N
  refine ⟨K, hK, hv, hne, fun h => (hes h).2, ?_, hrec⟩
  intro hall
  by_contra hcon
  have hKN : K < N := by omega
  obtain ⟨hK1, hemp⟩ := hes hKN
  rw [hall K hK1 (by omega)] at hemp
  exact Bool.false_ne_true hemp

/-- C2, as stated, is false; formalized as: every crawl performs one
politeness delay per visited page, whatever the fetch outcome. -/
def sleepsEveryIteration : Prop :=
  ∀ (net : Net) (base : String) (N : Nat),
    countSleeps (scrape_books net base N).2 =
      (visitedPages (scrape_books net base N).2).length

/-- C2 counterexample: with page 1 failing and page 2 succeeding
(`maxPages = 2`), the crawl issues two GETs but only one sleep — the
`except ... continue` path jumps over `time.sleep(1)`, so no delay separates
the page-1 and page-2 fetches. -/
theorem C2_counterexample : ¬ sleepsEveryIteration := by
  intro h
  exact absurd (h netPage1Down "B" 2) (by decide)

/-- C2 amended: the event trace is, page by visited page, one GET followed by
one sleep when the fetch succeeded with a non-empty item list, and one GET
with no sleep when the fetch failed or the page was empty; hence the number
of sleeps equals the number of successfully fetched non-empty pages, not the
number of page iterations. -/
theorem C2_sleep_after_nonempty_success (net : Net) (base : String) (N : Nat) :
    (scrape_books net base N).2 =
      (visitedPages (scrape_books net base N).2).flatMap (pageEvents net base) ∧
    countSleeps (scrape_books net base N).2 =
      ((visitedPages (scrape_books net base N).2).filter
        (okNonempty net base)).length := by
  have hv : visitedPages (scrape_books net base N).2 =
      crawlVisits net base (List.range' 1 N) := by
    rw [scrape_books, scrapePages_trace, visitedPages_flatMap]
  constructor
  · rw [hv, scrape_books, scrapePages_trace]
  · rw [hv, scrape_books, scrapePages_trace, countSleeps_flatMap]

/-- C7: pages are visited in strictly increasing index order, none revisited;
the result is the per-page record lists concatenated in visit order, and each
page's records are an order-preserving sublist of its per-element extraction
outputs — no reordering, no deduplication. -/
theorem C7_result_order (net : Net) (base : String) (N : Nat) :
    List.Pairwise (· < ·) (visitedPages (scrape_books net base N).2) ∧
    (visitedPages (scrape_books net base N).2).Nodup ∧
    (scrape_books net base N).1 =
      (visitedPages (scrape_books net base N).2).flatMap (pageRecords net base) ∧
    ∀ p raw, net (requestFor base p) = .ok raw →
      (pageRecords net base p).Sublist
        (raw.books.map (extract_book_details base)) := by
  obtain ⟨K, hK, hv, hne, hes, hrec⟩ := scrape_spec net base N
  refine ⟨?_, ?_, ?_, ?_⟩
  · rw [hv]; exact List.pairwise_lt_range' 1 K
  · rw [hv]; exact List.nodup_range' 1 K
  · rw [hv, hrec]
  · intro p raw hraw
    simp only [pageRecords, hraw, extractAll]
    exact List.filter_sublist _

/-- C7 witness: a concrete two-page crawl, instantiating the per-page
sublist clause at page 1. -/
theorem C7_witness :
    netAllGood (requestFor "B" 1) = .ok ⟨[bookGood]⟩ ∧
    (pageRecords netAllGood "B" 1).Sublist
      ((⟨[bookGood]⟩ : RawPage).books.map (extract_book_details "B")) :=
  ⟨rfl, (C7_result_order netAllGood "B" 2).2.2.2 1 ⟨[bookGood]⟩ rfl⟩

/-- Dropping an element whose image is empty does not change a `flatMap`. -/
theorem flatMap_filter_ne {α β : Type} [DecidableEq α] (f : α → List β) (p : α)
    (hp : f p = []) :
    ∀ qs : List α,
      qs.flatMap f = (qs.filter (fun q => decide (q ≠ p))).flatMap f := by
  intro qs
  induction qs with
  | nil => rfl
  | cons q rest ih =>
      by_cases hq : q = p
      · subst hq
        simp [List.filter_cons, hp, ih]
      · simp [List.filter_cons, hq, ih]

/-- C3: when the fetch of page `p` fails, that page contributes no records,
the result equals the accumulation over the other visited pages (it is
unaffected by page `p`), and the crawl proceeds from `p` to `p + 1` whenever
more pages remain; no fetch error escapes — `scrape_books` is a total
function into records and a trace. -/
theorem C3_fetch_failure_skips_page (net : Net) (base : String) (N p : Nat)
    (e : FetchError) (h : net (requestFor base p) = .error e) :
    pageRecords net base p = [] ∧
    (scrape_books net base N).1 =
      ((visitedPages (scrape_books net base N).2).filter
        (fun q => decide (q ≠ p))).flatMap (pageRecords net base) ∧
    (p ∈ visitedPages (scrape_books net base N).2 → p < N →
      p + 1 ∈ visitedPages (scrape_books net base N).2) := by
  have h1 : pageRecords net base p = [] := by
    simp [pageRecords, h]
  have hfull : (scrape_books net base N).1 =
      (visitedPages (scrape_books net base N).2).flatMap (pageRecords net base) := by
    rw [scrape_books, scrapePages_records, scrapePages_trace, visitedPages_flatMap]
  refine ⟨h1, ?_, ?_⟩
  · rw [hfull, flatMap_filter_ne (pageRecords net base) p h1]
  · exact visited_next net base N p (by simp [isEmptySuccess, h])

/-- C3 witness: page 2 times out in a three-page crawl. -/
theorem C3_witness :
    netPage2Down (requestFor "B" 2) = .error .timeout ∧
    (pageRecords netPage2Down "B" 2 = [] ∧
     (scrape_books netPage2Down "B" 3).1 =
       ((visitedPages (scrape_books netPage2Down "B" 3).2).filter
         (fun q => decide (q ≠ 2))).flatMap (pageRecords netPage2Down "B") ∧
     (2 ∈ visitedPages (scrape_books netPage2Down "B" 3).2 → 2 < 3 →
       2 + 1 ∈ visitedPages (scrape_books netPage2Down "B" 3).2)) :=
  ⟨rfl, C3_fetch_failure_skips_page netPage2Down "B" 3 2 .timeout rfl⟩

/-- A book element for which at least one of the five field reads raises. -/
def missingField (b : BookElement) : Prop :=
  b.titleAttr = none ∨ b.priceText = none ∨ b.availabilityText = none ∨
    b.ratingClass = none ∨ b.hrefAttr = none

/-- An element with a failing field read extracts to the empty dict. -/
theorem extract_eq_nil_of_missing (base : String) (b : BookElement)
    (h : missingField b) : extract_book_details base b = [] := by
  unfold extract_book_details
  split
  · rcases h with h | h | h | h | h <;> simp_all
  · rfl

/-- C4: an item element with any failing field read (title, price,
availability, rating, or detail URL) yields no record, and the extraction of
every sibling element on the page is unaffected — one bad item never aborts
the page, and extraction is a total function (no exception escapes). -/
theorem C4_item_isolation (base : String) (b : BookElement)
    (h : missingField b) :
    extract_book_details base b = [] ∧
    ∀ pre post : List BookElement,
      extractAll base (pre ++ b :: post) =
        extractAll base pre ++ extractAll base post := by
  have hnil := extract_eq_nil_of_missing base b h
  refine ⟨hnil, ?_⟩
  intro pre post
  simp [extractAll, List.filter_append, List.filter_cons, hnil]

/-- C4 witness: a price-less element between two well-formed siblings. -/
theorem C4_witness :
    missingField bookNoPrice ∧
    extract_book_details "B" bookNoPrice = [] ∧
    extractAll "B" ([bookGood] ++ bookNoPrice :: [bookGood]) =
      extractAll "B" [bookGood] ++ extractAll "B" [bookGood] :=
  ⟨Or.inr (Or.inl rfl),
   (C4_item_isolation "B" bookNoPrice (Or.inr (Or.inl rfl))).1,
   (C4_item_isolation "B" bookNoPrice (Or.inr (Or.inl rfl))).2 [bookGood] [bookGood]⟩

/-- C5: a successfully fetched page whose item elements all fail extraction
does not stop the crawl: the page contributes zero records, it is not an
empty success (the stop condition tests the parsed item elements, not the
extracted records), and the loop proceeds to the next page index. -/
theorem C5_all_extraction_failures_continue (net : Net) (base : String)
    (N p : Nat) (raw : RawPage) (hok : net (requestFor base p) = .ok raw)
    (hne : raw.books ≠ [])
    (hbad : ∀ b ∈ raw.books, extract_book_details base b = []) :
    pageRecords net base p = [] ∧
    isEmptySuccess net base p = false ∧
    (p ∈ visitedPages (scrape_books net base N).2 → p < N →
      p + 1 ∈ visitedPages (scrape_books net base N).2) := by
  have h2 : isEmptySuccess net base p = false := by
    simp only [isEmptySuccess, hok]
    simpa using hne
  refine ⟨?_, h2, visited_next net base N p h2⟩
  simp only [pageRecords, hok, extractAll]
  rw [List.filter_eq_nil_iff]
  intro r hr
  rw [List.mem_map] at hr
  obtain ⟨b, hb, rfl⟩ := hr
  simp [hbad b hb]

/-- C5 witness: page 1 parses to one element that fails extraction; the crawl
still visits page 2 and collects its record. -/
theorem C5_witness :
    netBadItems (requestFor "B" 1) = .ok ⟨[bookNoPrice]⟩ ∧
    pageRecords netBadItems "B" 1 = [] ∧
    isEmptySuccess netBadItems "B" 1 = false ∧
    1 + 1 ∈ visitedPages (scrape_books netBadItems "B" 2).2 :=
  ⟨rfl,
   (C5_all_extraction_failures_continue netBadItems "B" 2 1 ⟨[bookNoPrice]⟩
      rfl (by decide) (by decide)).1,
   (C5_all_extraction_failures_continue netBadItems "B" 2 1 ⟨[bookNoPrice]⟩
      rfl (by decide) (by decide)).2.1,
   (C5_all_extraction_failures_continue netBadItems "B" 2 1 ⟨[bookNoPrice]⟩
      rfl (by decide) (by decide)).2.2 (by decide) (by decide)⟩

/-- `pageRecords` on a successfully fetched page. -/
theorem pageRecords_ok {net : Net} {base : String} {p : Nat} {raw : RawPage}
    (hnet : net (requestFor base p) = .ok raw) :
    pageRecords net base p = extractAll base raw.books := by
  simp [pageRecords, hnet]

/-- `pageRecords` on a failed page. -/
theorem pageRecords_error {net : Net} {base : String} {p : Nat}
    {e : FetchError} (hnet : net (requestFor base p) = .error e) :
    pageRecords net base p = [] := by
  simp [pageRecords, hnet]

/-- A non-empty extraction result has exactly the five fields, in order. -/
theorem extract_shape (base : String) (b : BookElement)
    (h : extract_book_details base b ≠ []) :
    ∃ t pr av ra u : String,
      extract_book_details base b =
        [("Title", t), ("Price", pr), ("Availability", av),
         ("Rating", ra), ("URL", u)] := by
  revert h
  unfold extract_book_details
  split
  · intro _
    exact ⟨_, _, _, _, _, rfl⟩
  · intro h
    exact absurd rfl h

/-- C6: every record in the returned result is fully populated: it is exactly
the five keys Title, Price, Availability, Rating, URL, in that order, each
bound to a string; the empty dict produced for a failed item is filtered out
by `if book_info:`, so no partial record reaches the result. -/
theorem C6_records_fully_populated (net : Net) (base : String) (N : Nat)
    (r : Record) (hr : r ∈ (scrape_books net base N).1) :
    ∃ t pr av ra u : String,
      r = [("Title", t), ("Price", pr), ("Availability", av),
           ("Rating", ra), ("URL", u)] := by
  rw [scrape_books, scrapePages_records, List.mem_flatMap] at hr
  obtain ⟨p, _, hrp⟩ := hr
  cases hnet : net (requestFor base p) with
  | error e =>
      rw [pageRecords_error hnet] at hrp
      exact absurd hrp (List.not_mem_nil r)
  | ok raw =>
      rw [pageRecords_ok hnet] at hrp
      simp only [extractAll, List.mem_filter, List.mem_map] at hrp
      obtain ⟨⟨b, hb, rfl⟩, hne⟩ := hrp
      apply extract_shape
      simpa using hne

/-- C6 witness: the record scraped from a one-page crawl is in the result and
has the five-field shape. -/
theorem C6_witness :
    extract_book_details "B" bookGood ∈ (scrape_books netAllGood "B" 1).1 ∧
    ∃ t pr av ra u : String,
      extract_book_details "B" bookGood =
        [("Title", t), ("Price", pr), ("Availability", av),
         ("Rating", ra), ("URL", u)] :=
  ⟨List.Mem.head _,
   C6_records_fully_populated netAllGood "B" 1
     (extract_book_details "B" bookGood) (List.Mem.head _)⟩

/-- C8: the stored Price is the price element's text with its first character
— the leading currency symbol — removed (Python `text[1:]`); storage is
textual and unvalidated: extraction succeeds and stores `s.drop 1` for any
price text `s` whatsoever, with no numeric parsing. -/
theorem C8_price_currency_stripped (base t av ra u : String) (c : Char)
    (cs : List Char) :
    (extract_book_details base
        ⟨some t, some (String.mk (c :: cs)), some av, some ra, some u⟩).lookup
        "Price" = some (String.mk cs) ∧
    ∀ s : String,
      (extract_book_details base
          ⟨some t, some s, some av, some ra, some u⟩).lookup "Price" =
        some (s.drop 1) ∧
      extract_book_details base ⟨some t, some s, some av, some ra, some u⟩ ≠ [] := by
  refine ⟨?_, fun s => ⟨?_, ?_⟩⟩
  · simp [extract_book_details, List.lookup, String.drop_eq]
  · simp [extract_book_details, List.lookup]
  · simp [extract_book_details]

/-- C9's unreachable-base clause as stated: a failed fetch of page 1 alone
makes the whole crawl result empty. -/
def page1FailureEmptiesResult : Prop :=
  ∀ (net : Net) (base : String) (N : Nat) (e : FetchError),
    net (requestFor base 1) = .error e → (scrape_books net base N).1 = []

/-- C9 counterexample: page 1 unreachable but page 2 reachable with
`maxPages = 2` — the loop `continue`s past the page-1 failure and still
collects page 2's records, so the result is not empty. -/
theorem C9_counterexample : ¬ page1FailureEmptiesResult := by
  intro h
  exact absurd (h netPage1Down "B" 2 .network rfl) (by decide)

/-- If every page in the iteration list fails to fetch, no records result. -/
theorem scrapePages_all_error (net : Net) (base : String) :
    ∀ ps : List Nat,
      (∀ p ∈ ps, ∃ e, net (requestFor base p) = .error e) →
      (scrapePages net base ps).1 = [] := by
  intro ps
  induction ps with
  | nil => intro _; rfl
  | cons p rest ih =>
      intro h
      obtain ⟨e, he⟩ := h p (List.mem_cons_self p rest)
      simp only [scrapePages, he]
      exact ih fun q hq => h q (List.mem_cons_of_mem p hq)

/-- C9 amended: the result is empty when `maxPages = 0`, and when every page
fetch in range fails (the whole site unreachable for the crawl); on an empty
result, `save_to_csv` performs no write and only signals "No data to
save!". (The claim's page-1-only failure clause is refuted by
`C9_counterexample`: a page-1 failure alone is skipped, not fatal.) -/
theorem C9_empty_result_no_write (net : Net) (base : String) (N : Nat)
    (filename : String) :
    (N = 0 → (scrape_books net base N).1 = []) ∧
    ((∀ p, 1 ≤ p → p ≤ N → ∃ e, net (requestFor base p) = .error e) →
      (scrape_books net base N).1 = []) ∧
    save_to_csv [] filename = .warnNoData := by
  refine ⟨?_, ?_, rfl⟩
  · intro h
    subst h
    rfl
  · intro hall
    rw [scrape_books]
    apply scrapePages_all_error
    intro p hp
    rw [List.mem_range'_1] at hp
    exact hall p hp.1 (by omega)

/-- C9 witness: an all-failing network over two pages, the zero-page crawl,
and the no-write behaviour of `save_to_csv` on the empty result. -/
theorem C9_witness :
    (scrape_books netAllDown "B" 2).1 = [] ∧
    (scrape_books netAllDown "B" 0).1 = [] ∧
    save_to_csv [] "scraped_books.csv" = SaveAction.warnNoData :=
  ⟨(C9_empty_result_no_write netAllDown "B" 2 "scraped_books.csv").2.1
      (fun _ _ _ => ⟨.timeout, rfl⟩),
   (C9_empty_result_no_write netAllDown "B" 0 "scraped_books.csv").1 rfl,
   (C9_empty_result_no_write netAllDown "B" 2 "scraped_books.csv").2.2⟩

/-- C10: page 1 is fetched at the bare base URL and page N>1 at
`{base}/catalogue/page-{N}.html`; every GET issued by the crawl carries the
browser-identifying User-Agent header and the 10-second timeout. -/
theorem C10_request_shape (net : Net) (base : String) (N : Nat) :
    pageUrl base 1 = base ∧
    (∀ p, 1 < p →
      pageUrl base p = base ++ "/catalogue/page-" ++ toString p ++ ".html") ∧
    ∀ p req, Event.request p req ∈ (scrape_books net base N).2 →
      req = { url := pageUrl base p
            , userAgent := userAgentString
            , timeout := 10 } := by
  refine ⟨rfl, ?_, ?_⟩
  · intro p hp
    simp [pageUrl, hp]
  · intro p req hmem
    rw [scrape_books, scrapePages_trace, List.mem_flatMap] at hmem
    obtain ⟨q, hq, hev⟩ := hmem
    unfold pageEvents at hev
    cases hnet : net (requestFor base q) with
    | error e =>
        rw [hnet] at hev
        simp at hev
        obtain ⟨rfl, rfl⟩ := hev
        rfl
    | ok raw =>
        rw [hnet] at hev
        by_cases hb : raw.books.isEmpty
        · simp [hb] at hev
          obtain ⟨rfl, rfl⟩ := hev
          rfl
        · simp [hb] at hev
          obtain ⟨rfl, rfl⟩ := hev
          rfl

/-- C10 witness: the single GET of a one-page crawl has the derived URL, the
User-Agent, and the 10-second timeout. -/
theorem C10_witness :
    Event.request 1 (requestFor "B" 1) ∈ (scrape_books netAllGood "B" 1).2 ∧
    requestFor "B" 1 = { url := pageUrl "B" 1
                       , userAgent := userAgentString
                       , timeout := 10 } :=
  ⟨List.Mem.head _,
   (C10_request_shape netAllGood "B" 1).2.2 1 (requestFor "B" 1)
     (List.Mem.head _)⟩
